import Mathlib

/-!
A shallow embedding of the `autolysis.py` data-analysis pipeline.

The pipeline reads a CSV file with encoding fallback (`_read_csv_robust`),
runs a fixed sequence of descriptive-statistics computations
(`analyze_dataset` with its five sub-computations), renders charts,
and asks a hosted model for a narrative (`generate_narrative`),
falling back to a static report on network failure.

Tables are modelled as ordered lists of named columns; cells are
numeric, textual, or null.  Machine floats are modelled as `ℚ`
(the statistics in scope are exact rational computations except for
standard deviation and Pearson normalisation, whose square roots are
kept in a symbolic representation).  External library calls
(pandas `to_numeric`, `quantile`, `corr`; the tenacity retry decorator;
the HTTP client) are modelled by executable Lean functions faithful to
their documented semantics on the value domain used here.
-/

namespace Autolysis

/-- A cell of the loaded table: a numeric value, a text value, or a null
(pandas `NaN`). -/
inductive Cell
  | num (q : ℚ)
  | str (s : String)
  | null
  deriving DecidableEq

/-- The loaded dataset: an ordered list of named columns, rows aligned by
position (`pd.DataFrame`). -/
abbrev Table : Type := List (String × List Cell)

/-- The table after numeric coercion: every cell is a rational or null. -/
abbrev CoercedTable : Type := List (String × List (Option ℚ))

/-- `len(self.df)`: the number of rows (length of any column; 0 for an
empty table). -/
def rowCount {α : Type} (df : List (String × List α)) : Nat :=
  match df with
  | [] => 0
  | (_, cs) :: _ => cs.length

/-- All columns have the stated row count (a well-formed data frame). -/
def Aligned {α : Type} (df : List (String × List α)) (rows : Nat) : Prop :=
  ∀ p ∈ df, (p.2 : List α).length = rows

instance {α : Type} (df : List (String × List α)) (rows : Nat) :
    Decidable (Aligned df rows) := by
  unfold Aligned; infer_instance

/-- The value of a decimal digit character, `none` for any other
character. -/
def digitVal (c : Char) : Option Nat :=
  if c.isDigit then some (c.toNat - 48) else none

/-- Read a nonempty all-digit character run as a natural number. -/
def digitsToNatAux (acc : Nat) : List Char → Option Nat
  | [] => some acc
  | c :: rest =>
    match digitVal c with
    | some d => digitsToNatAux (acc * 10 + d) rest
    | none => none

/-- Read a digit run; the empty run is not a number. -/
def digitsToNat (l : List Char) : Option Nat :=
  match l with
  | [] => none
  | _ => digitsToNatAux 0 l

/-- Split a character run at every dot. -/
def splitDotAux (cur : List Char) : List Char → List (List Char)
  | [] => [cur.reverse]
  | c :: rest =>
    if c = '.' then cur.reverse :: splitDotAux [] rest
    else splitDotAux (c :: cur) rest

/-- Parse an unsigned decimal literal (`12`, `3.5`) as a rational;
models the element conversion performed by pandas `to_numeric`. -/
def parseUnsignedChars (l : List Char) : Option ℚ :=
  match splitDotAux [] l with
  | [a] => (digitsToNat a).map (fun n => (n : ℚ))
  | [a, b] =>
    match digitsToNat a, digitsToNat b with
    | some n, some m => some ((n : ℚ) + (m : ℚ) / ((10 : ℚ) ^ b.length))
    | _, _ => none
  | _ => none

/-- Parse an optionally signed decimal literal as a rational. -/
def parseNum (s : String) : Option ℚ :=
  match s.data with
  | [] => none
  | '-' :: rest => (parseUnsignedChars rest).map Neg.neg
  | '+' :: rest => parseUnsignedChars rest
  | l => parseUnsignedChars l

/-- `pd.to_numeric(cell, errors='coerce')` on one cell: numbers pass
through, parseable text becomes a number, everything else becomes null. -/
def coerceCell (c : Cell) : Option ℚ :=
  match c with
  | .num q => some q
  | .str s => parseNum s
  | .null => none

/-- Whether a column already has a numeric dtype before coercion
(`select_dtypes(include=[np.number])`): every cell is a number or null
(pandas stores an all-null or numeric-with-null column as `float64`). -/
def isNumericDtype (cs : List Cell) : Bool :=
  cs.all (fun c => match c with | .num _ => true | .null => true | .str _ => false)

/-- Insert into a sorted list of rationals. -/
def insertSorted (x : ℚ) : List ℚ → List ℚ
  | [] => [x]
  | y :: ys => if x ≤ y then x :: y :: ys else y :: insertSorted x ys

/-- Sort a list of rationals ascending (insertion sort). -/
def sortQ (xs : List ℚ) : List ℚ :=
  xs.foldr insertSorted []

/-- pandas `Series.quantile(q)` with the default linear interpolation,
over the non-null values; `none` when there are no values (pandas
returns `NaN` there). -/
def quantile (xs : List ℚ) (q : ℚ) : Option ℚ :=
  let s := sortQ xs
  match s with
  | [] => none
  | _ =>
    let n := s.length
    let h : ℚ := q * ((n : ℚ) - 1)
    let i : Nat := h.floor.toNat
    let fr : ℚ := h - (i : ℚ)
    let lo := s.getD i 0
    let hi := s.getD (min (i + 1) (n - 1)) 0
    some (lo + fr * (hi - lo))

/-- Minimum of a list of rationals, `none` when empty. -/
def minQ (xs : List ℚ) : Option ℚ :=
  match xs with
  | [] => none
  | y :: ys => some (ys.foldl min y)

/-- Maximum of a list of rationals, `none` when empty. -/
def maxQ (xs : List ℚ) : Option ℚ :=
  match xs with
  | [] => none
  | y :: ys => some (ys.foldl max y)

/-- Per-column `describe()` output. `varSample` is the sample variance;
`describe` reports its square root as `std`, kept here in squared form
since the root is irrational. -/
structure ColSummary where
  count : Nat
  mean : Option ℚ
  varSample : Option ℚ
  minv : Option ℚ
  q25 : Option ℚ
  q50 : Option ℚ
  q75 : Option ℚ
  maxv : Option ℚ
  deriving DecidableEq

/-- `Series.describe()` over the non-null values of one coerced column. -/
def describeCol (cells : List (Option ℚ)) : ColSummary :=
  let vals := cells.filterMap id
  let n := vals.length
  let mean : Option ℚ := if n = 0 then none else some (vals.sum / (n : ℚ))
  { count := n
    mean := mean
    varSample :=
      match mean with
      | none => none
      | some m =>
        if n ≤ 1 then none
        else some ((vals.map (fun v => (v - m) ^ 2)).sum / ((n : ℚ) - 1))
    minv := minQ vals
    q25 := quantile vals (1/4)
    q50 := quantile vals (1/2)
    q75 := quantile vals (3/4)
    maxv := maxQ vals }

/-- De-duplicate keeping the first occurrence of every element, with the
set of elements already emitted carried in `seen`. -/
def dedupFirstAux (seen : List String) : List String → List String
  | [] => []
  | a :: rest =>
    if seen.contains a then dedupFirstAux seen rest
    else a :: dedupFirstAux (a :: seen) rest

/-- De-duplicate keeping the first occurrence of every element
(`list(dict.fromkeys(...))`; also the model of `list(set(...))`, whose
iteration order CPython leaves unspecified). -/
def dedupFirst (l : List String) : List String :=
  dedupFirstAux [] l

/-- The `basic_stats` record of the analysis. -/
structure BasicStats where
  total_rows : Nat
  total_columns : Nat
  numeric_columns : List String
  summary : List (String × ColSummary)
  deriving DecidableEq

/-- `_get_basic_statistics`: collect the columns already typed numeric,
then replace EVERY column in place by its numeric coercion
(`self.df[col] = pd.to_numeric(self.df[col], errors='coerce')`), promote
a column when at least one value survives coercion, de-duplicate, and
report counts plus the per-numeric-column `describe()` summary.  Returns
the mutated table together with the record (the in-place mutation is
made explicit by state passing).  `pd.to_numeric` with `errors='coerce'`
does not raise on scalar cells, so the `except: pass` around it is dead
in this model. -/
def get_basic_statistics (df : Table) : CoercedTable × BasicStats :=
  let numeric0 : List String := (df.filter (fun p => isNumericDtype p.2)).map Prod.fst
  let df' : CoercedTable := df.map (fun p => (p.1, p.2.map coerceCell))
  let promoted : List String :=
    (df'.filter (fun p => ¬ (p.2.all Option.isNone))).map Prod.fst
  let numeric_cols : List String := dedupFirst (numeric0 ++ promoted)
  (df',
   { total_rows := rowCount df'
     total_columns := df.length
     numeric_columns := numeric_cols
     summary :=
       if numeric_cols.isEmpty then []
       else numeric_cols.map (fun c => (c, describeCol ((df'.lookup c).getD []))) })

/-- `_analyze_missing_values`: per-column percentage of nulls, keeping
only columns whose percentage is strictly positive.  (For an empty table
pandas produces `NaN` percentages, which fail the `> 0` filter; here
division by zero yields `0`, filtered out identically.) -/
def analyze_missing_values (df : CoercedTable) : List (String × ℚ) :=
  let rows := rowCount df
  (df.map (fun p => (p.1, ((p.2.countP Option.isNone : ℚ) / (rows : ℚ)) * 100))).filter
    (fun p => decide (0 < p.2))

/-- The dtype label of a coerced column (`int64` when every value is an
integer with no nulls, `float64` otherwise); both labels are numeric. -/
def dtypeLabel (cells : List (Option ℚ)) : String :=
  if cells.all (fun c => match c with | some q => q.den = 1 | none => false)
  then "int64" else "float64"

/-- A dtype label counts as numeric (`np.number`). -/
def isNumericLabel (s : String) : Prop :=
  s = "int64" ∨ s = "float64"

/-- `_get_column_types`: the dtype label of every column by name; runs on
the coerced table, since `_get_basic_statistics` mutated it. -/
def get_column_types (df : CoercedTable) : List (String × String) :=
  df.map (fun p => (p.1, dtypeLabel p.2))

/-- The exact (symbolic) representation of one pandas Pearson correlation
entry over the pairwise-complete observations of two columns:
`r = cov / sqrt(varProd)` (undefined — `NaN` — when `n < 2` or
`varProd = 0`).  Kept unreduced because the square root is irrational. -/
structure CorrRep where
  n : Nat
  cov : ℚ
  varProd : ℚ
  deriving DecidableEq

/-- Rows where both columns are non-null (pandas pairwise-complete
observations). -/
def pairedObs (xs ys : List (Option ℚ)) : List (ℚ × ℚ) :=
  (xs.zip ys).filterMap (fun p =>
    match p with
    | (some x, some y) => some (x, y)
    | _ => none)

/-- The Pearson entry for one pair of columns, in the representation of
`CorrRep`. -/
def corrRep (xs ys : List (Option ℚ)) : CorrRep :=
  let ps := pairedObs xs ys
  let n := ps.length
  if n = 0 then ⟨0, 0, 0⟩
  else
    let mx := (ps.map Prod.fst).sum / (n : ℚ)
    let my := (ps.map Prod.snd).sum / (n : ℚ)
    ⟨n, (ps.map (fun p => (p.1 - mx) * (p.2 - my))).sum,
        ((ps.map (fun p => (p.1 - mx) ^ 2)).sum) *
        ((ps.map (fun p => (p.2 - my) ^ 2)).sum)⟩

/-- `_compute_correlations`: on the (already coerced) table every column
has numeric dtype, so `select_dtypes` returns all columns; when more than
one exists, `df.corr().to_dict()` yields the full column→column→value
matrix, else the section is the empty mapping. -/
def compute_correlations (df : CoercedTable) : List (String × List (String × CorrRep)) :=
  if df.length > 1 then
    df.map (fun p => (p.1, df.map (fun q => (q.1, corrRep p.2 q.2))))
  else []

/-- One entry of the outlier report. -/
structure OutlierEntry where
  total_outliers : Nat
  percentage : ℚ
  lower_bound : ℚ
  upper_bound : ℚ
  deriving DecidableEq

/-- Rows of one column whose value lies strictly outside `[lb, ub]`
(`(df[col] < lb) | (df[col] > ub)`; a null compares false on both
sides and is never flagged). -/
def outlierCount (cells : List (Option ℚ)) (lb ub : ℚ) : Nat :=
  cells.countP (fun c =>
    match c with
    | some v => decide (v < lb) || decide (ub < v)
    | none => false)

/-- The IQR outlier computation for one column: quantile bounds from the
non-null values, count of rows strictly outside; `none` when the column
is empty (bounds are `NaN`, nothing is flagged) or when no row is
flagged (`column_outliers.empty`). -/
def outlierEntry (rows : Nat) (cells : List (Option ℚ)) : Option OutlierEntry :=
  let vals := cells.filterMap id
  match quantile vals (1/4), quantile vals (3/4) with
  | some q1, some q3 =>
    let iqr := q3 - q1
    let lb := q1 - (3/2) * iqr
    let ub := q3 + (3/2) * iqr
    let k := outlierCount cells lb ub
    if k = 0 then none
    else some
      { total_outliers := k
        percentage := ((k : ℚ) / (rows : ℚ)) * 100
        lower_bound := lb
        upper_bound := ub }
  | _, _ => none

/-- The `for col in numeric_cols: try ... except` loop of
`_detect_outliers`, with the per-column body abstracted as a fallible
computation: an exception (`.error`) is caught and the column skipped,
`.ok none` means no outliers (column omitted), `.ok (some e)` adds an
entry. -/
def detect_outliers_core (cols : List (String × List (Option ℚ)))
    (compute : String → List (Option ℚ) → Except String (Option OutlierEntry)) :
    List (String × OutlierEntry) :=
  cols.foldr (fun p acc =>
    match compute p.1 p.2 with
    | .ok (some e) => (p.1, e) :: acc
    | .ok none => acc
    | .error _ => acc) []

/-- `_detect_outliers`: the IQR method per (post-coercion, hence every)
column; the per-column body of the source never raises on the value
domain modelled here. -/
def detect_outliers (df : CoercedTable) : List (String × OutlierEntry) :=
  detect_outliers_core df (fun _ cells => .ok (outlierEntry (rowCount df) cells))

/-- The aggregate record returned by `analyze_dataset`. -/
structure AnalysisResult where
  basic_stats : BasicStats
  missing_values : List (String × ℚ)
  correlations : List (String × List (String × CorrRep))
  column_types : List (String × String)
  outliers : List (String × OutlierEntry)
  deriving DecidableEq

/-- `analyze_dataset`: the five sub-computations in source order; the
in-place coercion performed by `_get_basic_statistics` is threaded to the
later four, which therefore observe the coerced table. -/
def analyze_dataset (df : Table) : AnalysisResult :=
  let r := get_basic_statistics df
  { basic_stats := r.2
    missing_values := analyze_missing_values r.1
    correlations := compute_correlations r.1
    column_types := get_column_types r.1
    outliers := detect_outliers r.1 }

/-- Outcome of one `pd.read_csv(path, encoding=e)` attempt. -/
inductive ReadAttempt
  | success (t : Table)
  | unicodeDecodeError
  | parserError
  | otherError (msg : String)
  deriving DecidableEq

/-- A candidate attempt failed with one of the two caught exception
classes (`UnicodeDecodeError`, `pd.errors.ParserError`) and the loop
advances. -/
def skippable (a : ReadAttempt) : Prop :=
  a = .unicodeDecodeError ∨ a = .parserError

instance (a : ReadAttempt) : Decidable (skippable a) := by
  unfold skippable; infer_instance

/-- How ingestion can fail. -/
inductive ReadError
  | allFailed (tried : List String)
  | uncaught (msg : String)
  deriving DecidableEq

/-- The message of the terminal ingestion error, naming every attempted
encoding. -/
def readErrorMessage : ReadError → String
  | .allFailed tried =>
      "Could not read the CSV file with any of the tried encodings. Tried: "
        ++ String.intercalate ", " tried
  | .uncaught m => m

/-- The candidate list: the detector-suggested encoding inserted at
position 0 before the fixed fallback list, duplicates removed preserving
first occurrence (`list(dict.fromkeys(...))`). -/
def encodingsToTry (detected : String) : List String :=
  dedupFirst (detected :: ["utf-8", "latin-1", "iso-8859-1", "cp1252", "utf-16", "ascii"])

/-- The candidate loop of `_read_csv_robust`: first success wins, decode
and parse errors advance, any other exception propagates, exhaustion
raises the terminal error naming all attempted encodings. -/
def tryEncodings (attempt : String → ReadAttempt) (tried : List String) :
    List String → Except ReadError Table
  | [] => .error (.allFailed tried)
  | e :: rest =>
    match attempt e with
    | .success t => .ok t
    | .unicodeDecodeError => tryEncodings attempt tried rest
    | .parserError => tryEncodings attempt tried rest
    | .otherError m => .error (.uncaught m)

/-- `_read_csv_robust`, with the encoding detector and the per-encoding
parse outcome supplied as parameters (they are environment effects). -/
def read_csv_robust (detected : String) (attempt : String → ReadAttempt) :
    Except ReadError Table :=
  tryEncodings attempt (encodingsToTry detected) (encodingsToTry detected)

/-- Outcome of one HTTP POST to the chat-completion endpoint:
either a 2xx response whose parsed text content is `content`, or a
`requests.RequestException` (transport error or the `HTTPError` raised
by `raise_for_status`). -/
inductive HttpResult
  | ok (content : String)
  | err (msg : String)
  deriving DecidableEq

/-- The fallback report template written when the request fails. -/
def fallbackReport (name : String) (rows cols : Nat) : String :=
  "# Dataset Analysis for " ++ name ++ "\n\n"
    ++ "Total Rows: " ++ toString rows ++ "\n"
    ++ "Total Columns: " ++ toString cols ++ "\n\n"
    ++ "Automated analysis could not generate a detailed narrative."

/-- One execution of the body of `generate_narrative` given the HTTP
outcome of its single request: a success writes the response text to the
report file; a `RequestException` is caught inside the body and the
fallback report is written instead.  Either way the body returns
normally, writing exactly one file. -/
def narrativeBody (name : String) (rows cols : Nat) (resp : HttpResult) : String :=
  match resp with
  | .ok content => content
  | .err _ => fallbackReport name rows cols

/-- tenacity `wait_exponential(multiplier=1, min=4, max=10)`: the wait
before re-running after the `k`-th raising attempt, clamped to `[4, 10]`. -/
def waitExponential (k : Nat) : ℚ :=
  max 4 (min 10 ((2 : ℚ) ^ k))

/-- tenacity `retry(stop=stop_after_attempt(n))` around a body that, on
its `k`-th run, either returns after writing a file (`some w`) or raises
(`none`): re-run while the body raises and attempts remain; when the
last attempt raises the exception escapes.  Returns the list of files
written in order, the number of attempts used, and whether an exception
escaped the decorated call. -/
def retryRun (body : Nat → Option String) :
    Nat → Nat → List String × Nat × Bool
  | 0, used => ([], used, true)
  | n + 1, used =>
    match body used with
    | some w => ([w], used + 1, false)
    | none => retryRun body n (used + 1)

/-- `generate_narrative` under its `@retry(stop=stop_after_attempt(3),
wait=wait_exponential(multiplier=1, min=4, max=10))` decorator, with the
per-attempt HTTP outcome supplied as `responses`.  The body catches
`requests.RequestException` itself (writing the fallback), so it never
raises on an HTTP failure and tenacity sees every attempt succeed. -/
def generate_narrative (name : String) (rows cols : Nat)
    (responses : Nat → HttpResult) : List String × Nat × Bool :=
  retryRun (fun k => some (narrativeBody name rows cols (responses k))) 3 0

/-- Modelled from the spec: the retry contract the spec states for the
narration stage — on request failure the request itself is re-issued, up
to 3 attempts total, and only after all attempts fail is the fallback
written.  (In the source the `except` inside the body prevents the
decorator from ever retrying an HTTP failure; this definition is the
behaviour the spec describes, for comparison.) -/
def spec_retry_narrative (name : String) (rows cols : Nat)
    (responses : Nat → HttpResult) : List String × Nat × Bool :=
  match responses 0 with
  | .ok c => ([c], 1, false)
  | .err _ =>
    match responses 1 with
    | .ok c => ([c], 2, false)
    | .err _ =>
      match responses 2 with
      | .ok c => ([c], 3, false)
      | .err _ => ([fallbackReport name rows cols], 3, false)

/-- `os.path.basename`. -/
def basename (p : String) : String :=
  (p.splitOn "/").getLastD p

/-- The stem of `os.path.splitext`: strip the final extension, keeping a
leading-dot-only name intact. -/
def splitextStem (s : String) : String :=
  let parts := s.splitOn "."
  if parts.length ≤ 1 then s
  else
    let stem := String.intercalate "." parts.dropLast
    if stem = "" then s else stem

/-- `os.path.splitext(os.path.basename(csv_path))[0]`. -/
def datasetNameOf (path : String) : String :=
  splitextStem (basename path)

/-- The observable outcome of `main`. -/
inductive MainOutcome
  | usageExit (msg : String) (code : Nat)
  | completed (result : AnalysisResult) (reportWrites : List String)
  | ingestionFailure (e : ReadError)
  deriving DecidableEq

/-- The usage message printed when the positional argument is missing. -/
def usageMessage : String :=
  "Usage: python autolysis.py <path_to_csv>"

/-- `main`: `sys.argv` (program name included) is `args`; fewer than two
entries prints the usage message and exits with code 1; otherwise the
pipeline runs — ingestion may raise and propagate, analysis is total,
visualization catches every exception, and narration never lets an HTTP
failure escape (it writes a report either way). -/
def main (args : List String) (detected : String)
    (attempt : String → ReadAttempt) (responses : Nat → HttpResult) : MainOutcome :=
  if args.length < 2 then .usageExit usageMessage 1
  else
    match read_csv_robust detected attempt with
    | .error e => .ingestionFailure e
    | .ok df =>
      let analysis := analyze_dataset df
      let name := datasetNameOf (args.getD 1 "")
      let nar := generate_narrative name analysis.basic_stats.total_rows
        analysis.basic_stats.total_columns responses
      .completed analysis nar.1

/-- `s` contains `sub` as a substring. -/
def strContains (s sub : String) : Prop :=
  ∃ a b, s = a ++ sub ++ b

end Autolysis

namespace Autolysis

/-! ## Theorems -/

/-- Each piece of the fallback report occurs in it as a substring. -/
theorem fallbackReport_contains (name : String) (rows cols : Nat) :
    strContains (fallbackReport name rows cols) name ∧
    strContains (fallbackReport name rows cols) ("Total Rows: " ++ toString rows) ∧
    strContains (fallbackReport name rows cols) ("Total Columns: " ++ toString cols) ∧
    strContains (fallbackReport name rows cols)
      "Automated analysis could not generate a detailed narrative." := by
  refine ⟨⟨"# Dataset Analysis for ", "\n\n"
      ++ "Total Rows: " ++ toString rows ++ "\n"
      ++ "Total Columns: " ++ toString cols ++ "\n\n"
      ++ "Automated analysis could not generate a detailed narrative.", ?_⟩,
    ⟨"# Dataset Analysis for " ++ name ++ "\n\n", "\n"
      ++ "Total Columns: " ++ toString cols ++ "\n\n"
      ++ "Automated analysis could not generate a detailed narrative.", ?_⟩,
    ⟨"# Dataset Analysis for " ++ name ++ "\n\n"
      ++ "Total Rows: " ++ toString rows ++ "\n", "\n\n"
      ++ "Automated analysis could not generate a detailed narrative.", ?_⟩,
    ⟨"# Dataset Analysis for " ++ name ++ "\n\n"
      ++ "Total Rows: " ++ toString rows ++ "\n"
      ++ "Total Columns: " ++ toString cols ++ "\n\n", "", ?_⟩⟩ <;>
  · apply String.ext
    simp [fallbackReport, List.append_assoc]


/-- C3: for every run in which the narration network call fails (every
attempt's HTTP outcome is a `RequestException`), the stage writes exactly
one report — the fallback, containing the dataset name, the row count,
the column count, and the failure note — and no exception escapes it. -/
theorem narration_fallback_on_failure (name : String) (rows cols : Nat)
    (responses : Nat → HttpResult)
    (hfail : ∀ k, ∃ m, responses k = .err m) :
    generate_narrative name rows cols responses
      = ([fallbackReport name rows cols], 1, false) ∧
    strContains (fallbackReport name rows cols) name ∧
    strContains (fallbackReport name rows cols) ("Total Rows: " ++ toString rows) ∧
    strContains (fallbackReport name rows cols) ("Total Columns: " ++ toString cols) ∧
    strContains (fallbackReport name rows cols)
      "Automated analysis could not generate a detailed narrative." := by
  obtain ⟨m, hm⟩ := hfail 0
  refine ⟨?_, fallbackReport_contains name rows cols⟩
  simp [generate_narrative, retryRun, narrativeBody, hm]

/-- Witness for `narration_fallback_on_failure`: three consecutive
failures on a 5-row, 2-column dataset named `data`. -/
theorem narration_fallback_on_failure_witness :
    (∀ k, ∃ m, (fun _ : Nat => HttpResult.err "connection refused") k = HttpResult.err m) ∧
    generate_narrative "data" 5 2 (fun _ : Nat => HttpResult.err "connection refused")
      = ([fallbackReport "data" 5 2], 1, false) ∧
    strContains (fallbackReport "data" 5 2) "data" ∧
    strContains (fallbackReport "data" 5 2) ("Total Rows: " ++ toString 5) ∧
    strContains (fallbackReport "data" 5 2) ("Total Columns: " ++ toString 2) ∧
    strContains (fallbackReport "data" 5 2)
      "Automated analysis could not generate a detailed narrative." :=
  ⟨fun _ => ⟨"connection refused", rfl⟩,
   narration_fallback_on_failure "data" 5 2 _ (fun _ => ⟨"connection refused", rfl⟩)⟩

/-- C1 (code behaviour at the failing input): with a response sequence
whose first attempt fails and whose second would succeed with the text
`"The data tells a story."`, `generate_narrative` writes the fallback
report — not the successful response's text — exactly once, using a
single attempt: the `except requests.RequestException` inside the body
swallows the failure before the tenacity retry decorator can see it, so
no retry happens.  The spec-modelled retry (`spec_retry_narrative`)
would instead persist the successful text on the second attempt. -/
theorem narration_retry_never_fires :
    generate_narrative "data" 5 2
        (fun k => if k = 0 then .err "timeout" else .ok "The data tells a story.")
      = ([fallbackReport "data" 5 2], 1, false) ∧
    fallbackReport "data" 5 2 ≠ "The data tells a story." ∧
    (∀ k, 4 ≤ waitExponential k ∧ waitExponential k ≤ 10) ∧
    spec_retry_narrative "data" 5 2
        (fun k => if k = 0 then .err "timeout" else .ok "The data tells a story.")
      = (["The data tells a story."], 2, false) := by
  refine ⟨rfl, ?_, ?_, rfl⟩
  · decide
  · intro k
    exact ⟨le_max_left 4 _, max_le (by norm_num) (min_le_left 10 _)⟩


/-- Membership in the de-duplicated list: an element occurs exactly when
it occurs in the input and was not already emitted. -/
theorem mem_dedupFirstAux (x : String) (l : List String) :
    ∀ seen, x ∈ dedupFirstAux seen l ↔ x ∈ l ∧ x ∉ seen := by
  induction l with
  | nil => intro seen; simp [dedupFirstAux]
  | cons a rest ih =>
    intro seen
    by_cases hc : a ∈ seen
    · rw [dedupFirstAux, if_pos (List.elem_iff.mpr hc), ih seen]
      constructor
      · rintro ⟨hx, hs⟩
        exact ⟨List.mem_cons_of_mem _ hx, hs⟩
      · rintro ⟨hx, hs⟩
        rcases List.mem_cons.mp hx with h1 | h1
        · exact absurd (h1 ▸ hc) hs
        · exact ⟨h1, hs⟩
    · rw [dedupFirstAux, if_neg (fun h => hc (List.elem_iff.mp h))]
      simp only [List.mem_cons, ih (a :: seen)]
      constructor
      · rintro (hx | ⟨hx, hs⟩)
        · subst hx; exact ⟨Or.inl rfl, hc⟩
        · exact ⟨Or.inr hx, fun h => hs (Or.inr h)⟩
      · rintro ⟨hx | hx, hs⟩
        · exact Or.inl hx
        · by_cases hxa : x = a
          · exact Or.inl hxa
          · refine Or.inr ⟨hx, fun h => ?_⟩
            rcases h with h1 | h1
            · exact hxa h1
            · exact hs h1

/-- The de-duplicated list has no duplicates. -/
theorem nodup_dedupFirstAux (l : List String) :
    ∀ seen, (dedupFirstAux seen l).Nodup := by
  induction l with
  | nil => intro seen; simp [dedupFirstAux]
  | cons a rest ih =>
    intro seen
    by_cases hc : a ∈ seen
    · rw [dedupFirstAux, if_pos (List.elem_iff.mpr hc)]; exact ih seen
    · rw [dedupFirstAux, if_neg (fun h => hc (List.elem_iff.mp h))]
      refine List.nodup_cons.mpr ⟨fun h => ?_, ih (a :: seen)⟩
      exact ((mem_dedupFirstAux a rest (a :: seen)).mp h).2 (List.mem_cons_self a seen)

/-- De-duplication preserves the order of the input (it is a sublist). -/
theorem dedupFirstAux_sublist (l : List String) :
    ∀ seen, (dedupFirstAux seen l).Sublist l := by
  induction l with
  | nil => intro seen; simp [dedupFirstAux]
  | cons a rest ih =>
    intro seen
    by_cases hc : a ∈ seen
    · rw [dedupFirstAux, if_pos (List.elem_iff.mpr hc)]
      exact (ih seen).cons a
    · rw [dedupFirstAux, if_neg (fun h => hc (List.elem_iff.mp h))]
      exact (ih (a :: seen)).cons₂ a

/-- When every pending candidate fails with a caught error class, the
loop raises the terminal error naming the full attempted list. -/
theorem tryEncodings_allFailed (attempt : String → ReadAttempt) (tried : List String)
    (pend : List String) (h : ∀ e ∈ pend, skippable (attempt e)) :
    tryEncodings attempt tried pend = .error (.allFailed tried) := by
  induction pend with
  | nil => rfl
  | cons a rest ih =>
    have ha := h a (List.mem_cons_self a rest)
    have hrest := ih (fun e he => h e (List.mem_cons_of_mem _ he))
    rcases ha with h1 | h1 <;> simp [tryEncodings, h1, hrest]

/-- The loop returns `t` exactly when some pending candidate parses
successfully to `t` and every candidate before it failed with a caught
(decode or structural parse) error. -/
theorem tryEncodings_ok_iff (attempt : String → ReadAttempt) (tried : List String)
    (pend : List String) (t : Table) :
    tryEncodings attempt tried pend = .ok t ↔
      ∃ i, ∃ h : i < pend.length,
        attempt (pend.get ⟨i, h⟩) = .success t ∧
        ∀ e ∈ pend.take i, skippable (attempt e) := by
  induction pend with
  | nil => simp [tryEncodings]
  | cons a rest ih =>
    cases hA : attempt a with
    | success t' =>
      simp only [tryEncodings, hA]
      constructor
      · intro h
        have ht : t' = t := by injection h
        exact ⟨0, Nat.succ_pos _, by simpa [hA] using congrArg ReadAttempt.success ht,
          by simp⟩
      · rintro ⟨i, hi, hsucc, hskip⟩
        cases i with
        | zero =>
          simp only [List.get] at hsucc
          rw [hA] at hsucc
          injection hsucc with ht
          rw [ht]
        | succ i' =>
          have hmem : a ∈ (a :: rest).take (i' + 1) := by
            rw [List.take_succ_cons]; exact List.mem_cons_self _ _
          have := hskip a hmem
          rw [hA] at this
          rcases this with h1 | h1 <;> exact absurd h1 (by simp)
    | unicodeDecodeError =>
      simp only [tryEncodings, hA, ih]
      constructor
      · rintro ⟨i, hi, hsucc, hskip⟩
        refine ⟨i + 1, Nat.succ_lt_succ hi, hsucc, ?_⟩
        intro e he
        rw [List.take_succ_cons] at he
        rcases List.mem_cons.mp he with h1 | h1
        · rw [h1, hA]; exact Or.inl rfl
        · exact hskip e h1
      · rintro ⟨i, hi, hsucc, hskip⟩
        cases i with
        | zero =>
          simp only [List.get] at hsucc
          rw [hA] at hsucc
          exact absurd hsucc (by simp)
        | succ i' =>
          refine ⟨i', Nat.lt_of_succ_lt_succ hi, hsucc, ?_⟩
          intro e he
          exact hskip e (by rw [List.take_succ_cons]; exact List.mem_cons_of_mem _ he)
    | parserError =>
      simp only [tryEncodings, hA, ih]
      constructor
      · rintro ⟨i, hi, hsucc, hskip⟩
        refine ⟨i + 1, Nat.succ_lt_succ hi, hsucc, ?_⟩
        intro e he
        rw [List.take_succ_cons] at he
        rcases List.mem_cons.mp he with h1 | h1
        · rw [h1, hA]; exact Or.inr rfl
        · exact hskip e h1
      · rintro ⟨i, hi, hsucc, hskip⟩
        cases i with
        | zero =>
          simp only [List.get] at hsucc
          rw [hA] at hsucc
          exact absurd hsucc (by simp)
        | succ i' =>
          refine ⟨i', Nat.lt_of_succ_lt_succ hi, hsucc, ?_⟩
          intro e he
          exact hskip e (by rw [List.take_succ_cons]; exact List.mem_cons_of_mem _ he)
    | otherError m =>
      simp only [tryEncodings, hA]
      constructor
      · intro h; exact absurd h (by simp)
      · rintro ⟨i, hi, hsucc, hskip⟩
        cases i with
        | zero =>
          simp only [List.get] at hsucc
          rw [hA] at hsucc
          exact absurd hsucc (by simp)
        | succ i' =>
          have hmem : a ∈ (a :: rest).take (i' + 1) := by
            rw [List.take_succ_cons]; exact List.mem_cons_self _ _
          have := hskip a hmem
          rw [hA] at this
          rcases this with h1 | h1 <;> exact absurd h1 (by simp)


/-- C4: the candidate list starts with the detector-suggested encoding,
followed by the fixed fallback encodings, duplicates removed preserving
first occurrence (no duplicates remain, membership is unchanged, and the
original order is preserved); ingestion returns the table of the first
candidate whose parse succeeds, having advanced only past candidates
that failed with a decode or structural parse error; and when every
candidate fails with such an error it raises the terminal error whose
message names all attempted encodings. -/
theorem read_csv_robust_spec (detected : String) (attempt : String → ReadAttempt) :
    encodingsToTry detected
      = dedupFirst (detected :: ["utf-8", "latin-1", "iso-8859-1", "cp1252",
          "utf-16", "ascii"]) ∧
    (encodingsToTry detected).head? = some detected ∧
    (encodingsToTry detected).Nodup ∧
    (∀ e, e ∈ encodingsToTry detected ↔
      e ∈ detected :: ["utf-8", "latin-1", "iso-8859-1", "cp1252", "utf-16", "ascii"]) ∧
    (encodingsToTry detected).Sublist
      (detected :: ["utf-8", "latin-1", "iso-8859-1", "cp1252", "utf-16", "ascii"]) ∧
    (∀ t, read_csv_robust detected attempt = .ok t ↔
      ∃ i, ∃ h : i < (encodingsToTry detected).length,
        attempt ((encodingsToTry detected).get ⟨i, h⟩) = .success t ∧
        ∀ e ∈ (encodingsToTry detected).take i, skippable (attempt e)) ∧
    ((∀ e ∈ encodingsToTry detected, skippable (attempt e)) →
      read_csv_robust detected attempt
        = .error (.allFailed (encodingsToTry detected))) ∧
    readErrorMessage (.allFailed (encodingsToTry detected))
      = "Could not read the CSV file with any of the tried encodings. Tried: "
        ++ String.intercalate ", " (encodingsToTry detected) := by
  refine ⟨rfl, ?_, nodup_dedupFirstAux _ [], ?_, dedupFirstAux_sublist _ [],
    fun t => tryEncodings_ok_iff attempt _ _ t,
    fun h => tryEncodings_allFailed attempt _ _ h, rfl⟩
  · rw [encodingsToTry, dedupFirst, dedupFirstAux]
    simp
  · intro e
    rw [encodingsToTry, dedupFirst, mem_dedupFirstAux]
    simp

/-- Witness for `read_csv_robust_spec`: a detector suggestion of
`koi8-r` with every parse attempt failing structurally yields the
terminal error carrying the de-duplicated candidate list. -/
theorem read_csv_robust_spec_witness :
    (∀ e ∈ encodingsToTry "koi8-r",
      skippable ((fun _ : String => ReadAttempt.parserError) e)) ∧
    read_csv_robust "koi8-r" (fun _ : String => ReadAttempt.parserError)
      = .error (.allFailed ["koi8-r", "utf-8", "latin-1", "iso-8859-1", "cp1252",
          "utf-16", "ascii"]) :=
  ⟨fun _ _ => Or.inr rfl,
   (read_csv_robust_spec "koi8-r" (fun _ : String => ReadAttempt.parserError)).2.2.2.2.2.2.1
     (fun _ _ => Or.inr rfl)⟩


/-- Coercing every column preserves the row count. -/
theorem rowCount_coerced (df : Table) :
    rowCount (df.map (fun p => (p.1, p.2.map coerceCell))) = rowCount df := by
  cases df with
  | nil => rfl
  | cons p tl => simp [rowCount]

/-- Membership in the missing-values section: a column name maps to `v`
exactly when some column with that name has null percentage `v` and `v`
is strictly positive. -/
theorem mem_analyze_missing_values (df : CoercedTable) (n : String) (v : ℚ) :
    (n, v) ∈ analyze_missing_values df ↔
      (∃ cs, (n, cs) ∈ df ∧
        v = ((cs.countP Option.isNone : ℚ) / (rowCount df : ℚ)) * 100) ∧ 0 < v := by
  constructor
  · intro h
    have h' := List.mem_filter.mp h
    obtain ⟨⟨pn, pcs⟩, hp, heq⟩ := List.mem_map.mp h'.1
    have hv : 0 < v := by simpa using h'.2
    refine ⟨⟨pcs, ?_, ?_⟩, hv⟩
    · have hn : pn = n := congrArg Prod.fst heq
      rw [hn] at hp; exact hp
    · exact (congrArg Prod.snd heq).symm
  · rintro ⟨⟨cs, hmem, hveq⟩, hv⟩
    apply List.mem_filter.mpr
    refine ⟨List.mem_map.mpr ⟨(n, cs), hmem, ?_⟩, by simpa using hv⟩
    simp only
    rw [hveq]


/-- C2: the basic-statistics sub-computation replaces every column of
the table in place by its numeric coercion, not only the promoted ones;
hence a (nonempty) column none of whose values parses as numeric becomes
entirely null, and the later missing-values and column-type sections of
the analysis observe it as 100% missing with a numeric dtype label. -/
theorem coercion_mutates_every_column (df : Table) (rows : Nat)
    (hal : Aligned df rows) (hrows : 0 < rows)
    (n : String) (cs : List Cell) (hmem : (n, cs) ∈ df)
    (hnone : ∀ c ∈ cs, coerceCell c = none) :
    (get_basic_statistics df).1 = df.map (fun p => (p.1, p.2.map coerceCell)) ∧
    (n, cs.map coerceCell) ∈ (get_basic_statistics df).1 ∧
    (∀ v ∈ cs.map coerceCell, v = none) ∧
    (n, (100 : ℚ)) ∈ (analyze_dataset df).missing_values ∧
    (n, "float64") ∈ (analyze_dataset df).column_types ∧
    isNumericLabel "float64" := by
  have hlen : cs.length = rows := hal (n, cs) hmem
  have hallnone : ∀ v ∈ cs.map coerceCell, v = none := by
    intro v hv
    rcases List.mem_map.mp hv with ⟨c, hc, hcv⟩
    rw [← hcv]; exact hnone c hc
  have hmem' : (n, cs.map coerceCell) ∈ df.map (fun p => (p.1, p.2.map coerceCell)) :=
    List.mem_map.mpr ⟨(n, cs), hmem, rfl⟩
  have hrc : rowCount (df.map (fun p => (p.1, p.2.map coerceCell))) = rows := by
    rw [rowCount_coerced]
    cases df with
    | nil => exact absurd hmem (List.not_mem_nil _)
    | cons p tl =>
      have := hal p (List.mem_cons_self p tl)
      simpa [rowCount] using this
  have hcount : (cs.map coerceCell).countP Option.isNone = rows := by
    rw [List.countP_eq_length.mpr, List.length_map, hlen]
    intro v hv
    rw [hallnone v hv]; rfl
  have hlenpos : 0 < (cs.map coerceCell).length := by
    rw [List.length_map, hlen]; exact hrows
  obtain ⟨v0, hv0⟩ := List.exists_mem_of_length_pos hlenpos
  have hdtype : dtypeLabel (cs.map coerceCell) = "float64" := by
    rw [dtypeLabel]
    split
    · rename_i hall
      have h2 := List.all_eq_true.mp hall v0 hv0
      rw [hallnone v0 hv0] at h2
      simp at h2
    · rfl
  refine ⟨rfl, hmem', hallnone, ?_, ?_, Or.inr rfl⟩
  · apply (mem_analyze_missing_values
      (df.map (fun p => (p.1, p.2.map coerceCell))) n 100).mpr
    refine ⟨⟨cs.map coerceCell, hmem', ?_⟩, by norm_num⟩
    rw [hcount, hrc, div_self, one_mul]
    exact Nat.cast_ne_zero.mpr hrows.ne'
  · exact List.mem_map.mpr ⟨(n, cs.map coerceCell), hmem', by simp only; rw [hdtype]⟩

/-- Witness for `coercion_mutates_every_column`: a 1-row table whose
column `b` holds the unparseable text `x` is reported 100% missing. -/
theorem coercion_mutates_every_column_witness :
    Aligned ([("a", [Cell.num 1]), ("b", [Cell.str "x"])] : Table) 1 ∧
    (("b", [Cell.str "x"]) ∈ ([("a", [Cell.num 1]), ("b", [Cell.str "x"])] : Table)) ∧
    (∀ c ∈ [Cell.str "x"], coerceCell c = none) ∧
    ("b", (100 : ℚ)) ∈
      (analyze_dataset [("a", [Cell.num 1]), ("b", [Cell.str "x"])]).missing_values ∧
    ("b", "float64") ∈
      (analyze_dataset [("a", [Cell.num 1]), ("b", [Cell.str "x"])]).column_types :=
  ⟨by decide, by decide, by decide,
   (coercion_mutates_every_column [("a", [Cell.num 1]), ("b", [Cell.str "x"])] 1
      (by decide) Nat.one_pos "b" [Cell.str "x"] (by decide) (by decide)).2.2.2.1,
   (coercion_mutates_every_column [("a", [Cell.num 1]), ("b", [Cell.str "x"])] 1
      (by decide) Nat.one_pos "b" [Cell.str "x"] (by decide) (by decide)).2.2.2.2.1⟩


/-- `countP` only depends on the pointwise values of the predicate. -/
theorem countP_ext {α : Type} (p q : α → Bool) (l : List α)
    (h : ∀ a ∈ l, p a = q a) : l.countP p = l.countP q := by
  induction l with
  | nil => rfl
  | cons a rest ih =>
    rw [List.countP_cons, List.countP_cons, h a (List.mem_cons_self a rest),
      ih (fun b hb => h b (List.mem_cons_of_mem _ hb))]

/-- With a never-raising per-column body, the outlier loop is a
`filterMap` over the columns. -/
theorem detect_outliers_core_pure (cols : List (String × List (Option ℚ)))
    (f : List (Option ℚ) → Option OutlierEntry) :
    detect_outliers_core cols (fun _ cells => .ok (f cells))
      = cols.filterMap (fun p => (f p.2).map (fun e => (p.1, e))) := by
  induction cols with
  | nil => rfl
  | cons p rest ih =>
    cases hf : f p.2 <;>
      simp [detect_outliers_core, List.filterMap_cons, hf,
        ← ih, detect_outliers_core]

/-- Destructing a produced outlier entry: its bounds come from the
quartiles by the 1.5-IQR formula, its count is the strict-outside count,
and that count is positive. -/
theorem outlierEntry_eq_some (rows : Nat) (cs : List (Option ℚ)) (e : OutlierEntry)
    (h : outlierEntry rows cs = some e) :
    ∃ q1 q3,
      quantile (cs.filterMap id) (1/4) = some q1 ∧
      quantile (cs.filterMap id) (3/4) = some q3 ∧
      e.lower_bound = q1 - (3/2) * (q3 - q1) ∧
      e.upper_bound = q3 + (3/2) * (q3 - q1) ∧
      e.total_outliers = outlierCount cs e.lower_bound e.upper_bound ∧
      0 < e.total_outliers ∧
      e.percentage = ((e.total_outliers : ℚ) / (rows : ℚ)) * 100 := by
  rw [outlierEntry] at h
  rcases hq1 : quantile (cs.filterMap id) (1/4) with _ | q1 <;> rw [hq1] at h
  · simp at h
  rcases hq3 : quantile (cs.filterMap id) (3/4) with _ | q3 <;> rw [hq3] at h
  · simp at h
  simp only [] at h
  split at h
  · exact absurd h (by simp)
  · rename_i hk
    injection h with h
    subst h
    exact ⟨q1, q3, rfl, rfl, rfl, rfl, rfl, Nat.pos_of_ne_zero hk, rfl⟩

/-- A column with zero strictly-outside rows produces no entry. -/
theorem outlierEntry_none_of_no_outliers (rows : Nat) (cs : List (Option ℚ))
    (q1 q3 : ℚ) (hq1 : quantile (cs.filterMap id) (1/4) = some q1)
    (hq3 : quantile (cs.filterMap id) (3/4) = some q3)
    (hz : outlierCount cs (q1 - (3/2) * (q3 - q1)) (q3 + (3/2) * (q3 - q1)) = 0) :
    outlierEntry rows cs = none := by
  rw [outlierEntry, hq1, hq3]
  simp only [hz, if_pos]


/-- C5: the outlier report is the per-column `filterMap` of the IQR
computation; every reported entry's bounds are `Q1 - 1.5 IQR` and
`Q3 + 1.5 IQR` at the 0.25/0.75 quantiles, its count is exactly the
number of rows whose value is strictly less than the lower bound or
strictly greater than the upper bound, that count is positive, and a
column with zero flagged rows produces no entry at all. -/
theorem outlier_report_spec (df : CoercedTable) :
    detect_outliers df = df.filterMap
      (fun p => (outlierEntry (rowCount df) p.2).map (fun e => (p.1, e))) ∧
    (∀ cells lb ub, outlierCount cells lb ub
      = cells.countP (fun c => match c with
          | some v => decide (v < lb ∨ ub < v)
          | none => false)) ∧
    (∀ n e, (n, e) ∈ detect_outliers df →
      ∃ cs, (n, cs) ∈ df ∧ ∃ q1 q3,
        quantile (cs.filterMap id) (1/4) = some q1 ∧
        quantile (cs.filterMap id) (3/4) = some q3 ∧
        e.lower_bound = q1 - (3/2) * (q3 - q1) ∧
        e.upper_bound = q3 + (3/2) * (q3 - q1) ∧
        e.total_outliers = outlierCount cs e.lower_bound e.upper_bound ∧
        0 < e.total_outliers ∧
        e.percentage = ((e.total_outliers : ℚ) / (rowCount df : ℚ)) * 100) ∧
    (∀ rows cs q1 q3,
      quantile (cs.filterMap id) (1/4) = some q1 →
      quantile (cs.filterMap id) (3/4) = some q3 →
      outlierCount cs (q1 - (3/2) * (q3 - q1)) (q3 + (3/2) * (q3 - q1)) = 0 →
      outlierEntry rows cs = none) := by
  refine ⟨detect_outliers_core_pure df _, ?_, ?_, outlierEntry_none_of_no_outliers⟩
  · intro cells lb ub
    rw [outlierCount]
    apply countP_ext
    intro c _
    cases c with
    | none => rfl
    | some v => by_cases h1 : v < lb <;> by_cases h2 : ub < v <;> simp [h1, h2]
  · intro n e hmem
    rw [detect_outliers, detect_outliers_core_pure] at hmem
    obtain ⟨⟨pn, pcs⟩, hp, hsome⟩ := List.mem_filterMap.mp hmem
    obtain ⟨e0, he0, hpair⟩ := Option.map_eq_some'.mp hsome
    obtain ⟨hn, he⟩ := Prod.mk.injEq pn e0 n e |>.mp hpair
    subst hn; subst he
    obtain ⟨q1, q3, h1, h2, h3, h4, h5, h6, h7⟩ :=
      outlierEntry_eq_some (rowCount df) pcs e0 he0
    exact ⟨pcs, hp, q1, q3, h1, h2, h3, h4, h5, h6, h7⟩

/-- Witness for `outlier_report_spec`: a spread-out 4-value column has
no strictly-outside row and is absent from the report. -/
theorem outlier_report_spec_witness :
    quantile ([some (1 : ℚ), some 2, some 3, some 4].filterMap id) (1/4)
      = some (7/4) ∧
    quantile ([some (1 : ℚ), some 2, some 3, some 4].filterMap id) (3/4)
      = some (13/4) ∧
    outlierCount [some (1 : ℚ), some 2, some 3, some 4]
      ((7/4) - (3/2) * ((13/4) - (7/4))) ((13/4) + (3/2) * ((13/4) - (7/4))) = 0 ∧
    outlierEntry 4 [some (1 : ℚ), some 2, some 3, some 4] = none :=
  ⟨by norm_num [quantile, sortQ, insertSorted, Rat.floor_def', List.filterMap_cons],
   by
     norm_num [quantile, sortQ, insertSorted, Rat.floor_def', List.filterMap_cons]
     simp
     norm_num,
   by norm_num [outlierCount, List.countP_cons],
   (outlier_report_spec [("a", [some (1 : ℚ), some 2, some 3, some 4])]).2.2.2 4
     [some 1, some 2, some 3, some 4] (7/4) (13/4)
     (by norm_num [quantile, sortQ, insertSorted, Rat.floor_def', List.filterMap_cons])
     (by
       norm_num [quantile, sortQ, insertSorted, Rat.floor_def', List.filterMap_cons]
       simp
       norm_num)
     (by norm_num [outlierCount, List.countP_cons])⟩


/-- C6: the missing-values section contains a column exactly when its
percentage of null entries is strictly positive; no contained column has
0% missingness, and each reported value is the column's null count
divided by the total row count, times 100. -/
theorem missing_values_spec (df : CoercedTable) :
    (∀ n v, (n, v) ∈ analyze_missing_values df ↔
      (∃ cs, (n, cs) ∈ df ∧
        v = ((cs.countP Option.isNone : ℚ) / (rowCount df : ℚ)) * 100) ∧ 0 < v) ∧
    (∀ p ∈ analyze_missing_values df, 0 < p.2 ∧ p.2 ≠ 0) := by
  refine ⟨fun n v => mem_analyze_missing_values df n v, fun p hp => ?_⟩
  obtain ⟨n, v⟩ := p
  have h := (mem_analyze_missing_values df n v).mp hp
  exact ⟨h.2, h.2.ne'⟩

/-- Witness for `missing_values_spec`: a 2-row column with one null is
reported at 50%. -/
theorem missing_values_spec_witness :
    ("a", (50 : ℚ)) ∈ analyze_missing_values [("a", [some (1 : ℚ), none])] :=
  ((missing_values_spec [("a", [some (1 : ℚ), none])]).1 "a" 50).mpr
    ⟨⟨[some (1 : ℚ), none], List.mem_cons_self _ _,
      by norm_num [rowCount, List.countP_cons]⟩, by norm_num⟩


/-- Swapping the two columns swaps every pairwise-complete observation. -/
theorem pairedObs_swap (xs ys : List (Option ℚ)) :
    pairedObs ys xs = (pairedObs xs ys).map Prod.swap := by
  induction xs generalizing ys with
  | nil => cases ys <;> simp [pairedObs]
  | cons a xs ih =>
    cases ys with
    | nil => simp [pairedObs]
    | cons b ys =>
      have h := ih ys
      cases a <;> cases b <;>
        simp only [pairedObs, List.zip_cons_cons, List.filterMap_cons] at h ⊢ <;>
        simp_all [pairedObs]

/-- The Pearson representation is symmetric in its two columns. -/
theorem corrRep_comm (xs ys : List (Option ℚ)) : corrRep xs ys = corrRep ys xs := by
  rw [corrRep, corrRep, pairedObs_swap xs ys]
  simp only [List.length_map, List.map_map]
  by_cases h : (pairedObs xs ys).length = 0
  · rw [if_pos h, if_pos h]
  · rw [if_neg h, if_neg h]
    have hfst : (pairedObs xs ys).map (Prod.fst ∘ Prod.swap)
        = (pairedObs xs ys).map Prod.snd := rfl
    have hsnd : (pairedObs xs ys).map (Prod.snd ∘ Prod.swap)
        = (pairedObs xs ys).map Prod.fst := rfl
    rw [hfst, hsnd]
    congr 1
    · apply congrArg
      apply List.map_congr_left
      intro p _
      simp only [Function.comp_apply, Prod.fst_swap, Prod.snd_swap]
      ring
    · rw [mul_comm]
      congr 1

/-- The correlation section is empty exactly for tables with fewer than
two (post-coercion) columns. -/
theorem compute_correlations_eq_nil_iff (df : CoercedTable) :
    compute_correlations df = [] ↔ df.length ≤ 1 := by
  rw [compute_correlations]
  by_cases h : df.length > 1
  · rw [if_pos h]
    constructor
    · intro hmap
      have hl := congrArg List.length hmap
      rw [List.length_map] at hl
      simp only [List.length_nil] at hl
      omega
    · intro hle
      exact absurd h (by omega)
  · rw [if_neg h]
    constructor
    · intro _
      omega
    · intro _
      rfl


/-- C7 counterexample: a table with exactly one numeric-dtype column
(`a`; column `b` is text and none of its values parses as numeric) still
gets a non-empty correlation section — the in-place coercion of basic
statistics has already given every column a numeric dtype by the time
correlations run, so the claimed "empty for fewer than two numeric
columns" fails on the code. -/
theorem correlations_one_numeric_column_not_empty :
    (([("a", [Cell.num 1, Cell.num 2, Cell.num 3]),
       ("b", [Cell.str "x", Cell.str "y", Cell.str "z"])] : Table).countP
      (fun p => isNumericDtype p.2) = 1) ∧
    (∀ c ∈ [Cell.str "x", Cell.str "y", Cell.str "z"], coerceCell c = none) ∧
    (analyze_dataset [("a", [Cell.num 1, Cell.num 2, Cell.num 3]),
       ("b", [Cell.str "x", Cell.str "y", Cell.str "z"])]).basic_stats.numeric_columns
      = ["a"] ∧
    (analyze_dataset [("a", [Cell.num 1, Cell.num 2, Cell.num 3]),
       ("b", [Cell.str "x", Cell.str "y", Cell.str "z"])]).correlations ≠ [] :=
  ⟨by decide, by decide, by decide, by decide⟩

/-- C7 amended: the correlation section of the analysis is empty exactly
when the table has fewer than two columns of any kind (after the
in-place coercion every column counts as numeric); with at least two
columns it is the full column-by-column matrix of pairwise Pearson
entries over the coerced columns, and that matrix is symmetric because
the Pearson entry itself is. -/
theorem correlations_spec_amended (df : Table) :
    ((analyze_dataset df).correlations = [] ↔ df.length ≤ 1) ∧
    (1 < df.length →
      (analyze_dataset df).correlations
        = (get_basic_statistics df).1.map (fun p =>
            (p.1, (get_basic_statistics df).1.map (fun q => (q.1, corrRep p.2 q.2))))) ∧
    (∀ xs ys, corrRep xs ys = corrRep ys xs) := by
  have hlen : (get_basic_statistics df).1.length = df.length := by
    simp [get_basic_statistics]
  refine ⟨?_, ?_, corrRep_comm⟩
  · rw [show (analyze_dataset df).correlations
        = compute_correlations (get_basic_statistics df).1 from rfl,
      compute_correlations_eq_nil_iff, hlen]
  · intro h
    rw [show (analyze_dataset df).correlations
        = compute_correlations (get_basic_statistics df).1 from rfl,
      compute_correlations]
    rw [if_pos]
    rw [hlen]
    exact h

/-- Witness for `correlations_spec_amended`: a 2-column numeric table
produces the full 2-by-2 matrix. -/
theorem correlations_spec_amended_witness :
    1 < ([("x", [Cell.num 1, Cell.num 2]), ("y", [Cell.num 2, Cell.num 1])] : Table).length ∧
    (analyze_dataset [("x", [Cell.num 1, Cell.num 2]), ("y", [Cell.num 2, Cell.num 1])]).correlations
      = (get_basic_statistics [("x", [Cell.num 1, Cell.num 2]),
            ("y", [Cell.num 2, Cell.num 1])]).1.map (fun p =>
          (p.1, (get_basic_statistics [("x", [Cell.num 1, Cell.num 2]),
            ("y", [Cell.num 2, Cell.num 1])]).1.map (fun q => (q.1, corrRep p.2 q.2)))) :=
  ⟨by decide,
   (correlations_spec_amended [("x", [Cell.num 1, Cell.num 2]),
      ("y", [Cell.num 2, Cell.num 1])]).2.1 (by decide)⟩


/-- C8 counterexample: a 2-column table with zero numeric columns (no
column typed numeric and no value surviving coercion) yields an empty
numeric-columns list and an empty basic-statistics summary as claimed,
but its correlation section is NOT empty: the in-place coercion has made
both (all-null) columns numeric dtype, so `df.corr().to_dict()` returns
a 2-by-2 (undefined-valued) matrix. -/
theorem zero_numeric_correlations_not_empty :
    (∀ p ∈ ([("a", [Cell.str "x"]), ("b", [Cell.str "y"])] : Table),
      isNumericDtype p.2 = false ∧ ∀ c ∈ p.2, coerceCell c = none) ∧
    (analyze_dataset [("a", [Cell.str "x"]),
        ("b", [Cell.str "y"])]).basic_stats.numeric_columns = [] ∧
    (analyze_dataset [("a", [Cell.str "x"]),
        ("b", [Cell.str "y"])]).basic_stats.summary = [] ∧
    (analyze_dataset [("a", [Cell.str "x"]), ("b", [Cell.str "y"])]).correlations ≠ [] :=
  ⟨by decide, by decide, by decide, by decide⟩

/-- C8 amended: for a table with zero numeric columns, `analyze_dataset`
returns (it is total) with an empty numeric-column list and an empty
basic-statistics summary while reporting the total row and column
counts; its correlation section, however, is empty only when the table
has fewer than two columns — with two or more (all-null after coercion)
columns the section still carries an entry per column pair. -/
theorem analyze_zero_numeric_amended (df : Table)
    (h : ∀ p ∈ df, isNumericDtype p.2 = false ∧ ∀ c ∈ p.2, coerceCell c = none) :
    (analyze_dataset df).basic_stats.numeric_columns = [] ∧
    (analyze_dataset df).basic_stats.summary = [] ∧
    (analyze_dataset df).basic_stats.total_rows = rowCount df ∧
    (analyze_dataset df).basic_stats.total_columns = df.length ∧
    ((analyze_dataset df).correlations = [] ↔ df.length ≤ 1) := by
  have hnum0 : df.filter (fun p => isNumericDtype p.2) = [] :=
    List.filter_eq_nil_iff.mpr (fun p hp => by rw [(h p hp).1]; exact Bool.false_ne_true)
  have hprom : (df.map (fun p => (p.1, p.2.map coerceCell))).filter
      (fun p => ¬ (p.2.all Option.isNone)) = [] := by
    apply List.filter_eq_nil_iff.mpr
    intro p hp
    obtain ⟨p0, hp0, hpe⟩ := List.mem_map.mp hp
    have hall : (p0.2.map coerceCell).all Option.isNone = true := by
      apply List.all_eq_true.mpr
      intro v hv
      obtain ⟨c, hc, hcv⟩ := List.mem_map.mp hv
      rw [← hcv, (h p0 hp0).2 c hc]
      rfl
    rw [← hpe]
    simp [hall]
  have hcols : (analyze_dataset df).basic_stats.numeric_columns = [] := by
    show dedupFirst ((df.filter (fun p => isNumericDtype p.2)).map Prod.fst ++
      ((df.map (fun p => (p.1, p.2.map coerceCell))).filter
        (fun p => ¬ (p.2.all Option.isNone))).map Prod.fst) = []
    rw [hnum0, hprom]
    rfl
  refine ⟨hcols, ?_, ?_, rfl, ?_⟩
  · show (if (dedupFirst ((df.filter (fun p => isNumericDtype p.2)).map Prod.fst ++
      ((df.map (fun p => (p.1, p.2.map coerceCell))).filter
        (fun p => ¬ (p.2.all Option.isNone))).map Prod.fst)).isEmpty then []
      else _) = ([] : List (String × ColSummary))
    rw [hnum0, hprom]
    rfl
  · show rowCount (df.map (fun p => (p.1, p.2.map coerceCell))) = rowCount df
    exact rowCount_coerced df
  · rw [show (analyze_dataset df).correlations
        = compute_correlations (get_basic_statistics df).1 from rfl,
      compute_correlations_eq_nil_iff]
    simp [get_basic_statistics]

/-- Witness for `analyze_zero_numeric_amended`: a single all-text
column — empty summary, counts reported, and (with only one column) an
empty correlation section. -/
theorem analyze_zero_numeric_amended_witness :
    (∀ p ∈ ([("t", [Cell.str "u", Cell.str "v"])] : Table),
      isNumericDtype p.2 = false ∧ ∀ c ∈ p.2, coerceCell c = none) ∧
    (analyze_dataset [("t", [Cell.str "u", Cell.str "v"])]).basic_stats.numeric_columns = [] ∧
    (analyze_dataset [("t", [Cell.str "u", Cell.str "v"])]).basic_stats.summary = [] ∧
    (analyze_dataset [("t", [Cell.str "u", Cell.str "v"])]).basic_stats.total_rows
      = rowCount [("t", [Cell.str "u", Cell.str "v"])] ∧
    (analyze_dataset [("t", [Cell.str "u", Cell.str "v"])]).basic_stats.total_columns
      = ([("t", [Cell.str "u", Cell.str "v"])] : Table).length ∧
    ((analyze_dataset [("t", [Cell.str "u", Cell.str "v"])]).correlations = [] ↔
      ([("t", [Cell.str "u", Cell.str "v"])] : Table).length ≤ 1) :=
  ⟨by decide, analyze_zero_numeric_amended [("t", [Cell.str "u", Cell.str "v"])] (by decide)⟩


/-- Unfolding the outlier loop over one column. -/
theorem detect_outliers_core_cons (p : String × List (Option ℚ))
    (rest : List (String × List (Option ℚ)))
    (compute : String → List (Option ℚ) → Except String (Option OutlierEntry)) :
    detect_outliers_core (p :: rest) compute =
      match compute p.1 p.2 with
      | .ok (some e) => (p.1, e) :: detect_outliers_core rest compute
      | .ok none => detect_outliers_core rest compute
      | .error _ => detect_outliers_core rest compute := rfl

/-- C9: if the per-column outlier computation raises for one column,
that column is absent from the report and the loop's result is exactly
what it would be with the failing column removed — the remaining
columns are all still processed. -/
theorem outlier_column_failure_isolated
    (cols : List (String × List (Option ℚ)))
    (compute : String → List (Option ℚ) → Except String (Option OutlierEntry))
    (c : String)
    (h : ∀ cells, ∃ m, compute c cells = .error m) :
    (∀ e, (c, e) ∉ detect_outliers_core cols compute) ∧
    detect_outliers_core cols compute
      = detect_outliers_core (cols.filter (fun p => p.1 ≠ c)) compute := by
  induction cols with
  | nil => exact ⟨fun e he => (List.not_mem_nil _ he), rfl⟩
  | cons p rest ih =>
    by_cases hp : p.1 = c
    · obtain ⟨m, hm⟩ := h p.2
      rw [← hp] at hm
      rw [detect_outliers_core_cons, hm,
        List.filter_cons_of_neg (by simp [hp])]
      exact ih
    · rw [detect_outliers_core_cons,
        List.filter_cons_of_pos (by simp [hp]), detect_outliers_core_cons]
      cases hcp : compute p.1 p.2 with
      | error m => exact ⟨fun e he => ih.1 e he, ih.2⟩
      | ok o =>
        cases o with
        | none => exact ⟨fun e he => ih.1 e he, ih.2⟩
        | some e0 =>
          refine ⟨fun e he => ?_, by rw [ih.2]⟩
          rcases List.mem_cons.mp he with h1 | h1
          · exact hp ((Prod.mk.injEq _ _ _ _).mp h1).1.symm
          · exact ih.1 e h1

/-- Witness for `outlier_column_failure_isolated`: the failing column
`bad` is skipped while column `a` is still reported. -/
theorem outlier_column_failure_isolated_witness :
    (∀ cells, ∃ m, (fun n (cells0 : List (Option ℚ)) =>
        if n = "bad" then Except.error "boom"
        else Except.ok (outlierEntry 5 cells0)) "bad" cells = .error m) ∧
    (∀ e, ("bad", e) ∉ detect_outliers_core
        [("bad", [some (1 : ℚ)]), ("a", [some (1 : ℚ), some 2, some 1, some 2, some 100])]
        (fun n cells0 =>
          if n = "bad" then Except.error "boom"
          else Except.ok (outlierEntry 5 cells0))) ∧
    detect_outliers_core
        [("bad", [some (1 : ℚ)]), ("a", [some (1 : ℚ), some 2, some 1, some 2, some 100])]
        (fun n cells0 =>
          if n = "bad" then Except.error "boom"
          else Except.ok (outlierEntry 5 cells0))
      = detect_outliers_core
          ([("bad", [some (1 : ℚ)]),
            ("a", [some (1 : ℚ), some 2, some 1, some 2, some 100])].filter
            (fun p => p.1 ≠ "bad"))
          (fun n cells0 =>
            if n = "bad" then Except.error "boom"
            else Except.ok (outlierEntry 5 cells0)) :=
  ⟨fun _ => ⟨"boom", rfl⟩,
   (outlier_column_failure_isolated _ _ "bad" (fun _ => ⟨"boom", rfl⟩)).1,
   (outlier_column_failure_isolated _ _ "bad" (fun _ => ⟨"boom", rfl⟩)).2⟩


/-- C10: with no positional argument (`sys.argv` shorter than 2) the
program prints the usage message and exits with code 1; with the
argument present it either propagates an uncaught ingestion failure or
runs the pipeline to completion, ending with a (non-empty) report
write. -/
theorem main_cli_spec (args : List String) (detected : String)
    (attempt : String → ReadAttempt) (responses : Nat → HttpResult) :
    (args.length < 2 →
      main args detected attempt responses = .usageExit usageMessage 1) ∧
    (2 ≤ args.length →
      (∀ e, read_csv_robust detected attempt = .error e →
        main args detected attempt responses = .ingestionFailure e) ∧
      (∀ df, read_csv_robust detected attempt = .ok df →
        main args detected attempt responses
          = .completed (analyze_dataset df)
              [narrativeBody (datasetNameOf (args.getD 1 ""))
                (analyze_dataset df).basic_stats.total_rows
                (analyze_dataset df).basic_stats.total_columns (responses 0)] ∧
        ([narrativeBody (datasetNameOf (args.getD 1 ""))
            (analyze_dataset df).basic_stats.total_rows
            (analyze_dataset df).basic_stats.total_columns (responses 0)]
          : List String) ≠ [])) := by
  constructor
  · intro h
    rw [main, if_pos h]
  · intro h
    have h2 : ¬ args.length < 2 := not_lt.mpr h
    constructor
    · intro e he
      rw [main, if_neg h2, he]
    · intro df hdf
      rw [main, if_neg h2, hdf]
      exact ⟨rfl, by simp⟩

/-- Witness for `main_cli_spec`: called with only the program name, the
program exits through the usage branch with code 1. -/
theorem main_cli_spec_witness :
    (["autolysis.py"] : List String).length < 2 ∧
    main ["autolysis.py"] "utf-8" (fun _ : String => ReadAttempt.unicodeDecodeError)
        (fun _ : Nat => HttpResult.err "no credential")
      = .usageExit usageMessage 1 :=
  ⟨by decide,
   (main_cli_spec ["autolysis.py"] "utf-8" (fun _ : String => ReadAttempt.unicodeDecodeError)
      (fun _ : Nat => HttpResult.err "no credential")).1 (by decide)⟩

end Autolysis
